import Mathlib

/-!
Verification development for the Retail Sales Management System backend
(src/backend/src/main.py and src/backend/src/models.py).

The code is a filter-and-query layer over a single relational table.  We
embed it shallowly:

* the table is a Lean list of `SalesTransaction` records; every non-key
  column is nullable (`Option`), matching the SQLAlchemy model in
  models.py where only `transaction_id` is a primary key;
* SQL dates are modelled as integers (a linearly ordered day number is all
  the code ever uses: the two inclusive comparisons in the date-range
  filter);
* SQL `Float` money columns are modelled as exact rationals; no claim
  depends on rounding behaviour;
* SQLAlchemy `query.filter` is `List.filter`, SQL three-valued logic is
  reflected by making every predicate false on `none` (no predicate in
  the code is negated, so this is exact);
* Python exceptions that reach the endpoint handler (and surface as
  HTTP 500) are `Except.error ()`.
-/

instance {ε α : Type} [DecidableEq ε] [DecidableEq α] : DecidableEq (Except ε α) := fun x y =>
  match x, y with
  | .error e, .error f =>
      if h : e = f then isTrue (by rw [h]) else isFalse (fun hh => by cases hh; exact h rfl)
  | .error _, .ok _ => isFalse (fun hh => by cases hh)
  | .ok _, .error _ => isFalse (fun hh => by cases hh)
  | .ok a, .ok b =>
      if h : a = b then isTrue (by rw [h]) else isFalse (fun hh => by cases hh; exact h rfl)

/-- Python `str.strip()` / trimming helper on character lists:
drop characters satisfying `p` from the end of a list. -/
def dropEndWhile (p : Char → Bool) (s : List Char) : List Char :=
  ((s.reverse).dropWhile p).reverse

/-- Python `str.strip(chars)` on a character list: remove characters
satisfying `p` from both ends. -/
def pyStrip (p : Char → Bool) (s : List Char) : List Char :=
  dropEndWhile p (s.dropWhile p)

/-- The character set `'{}'` used by `strip('{}')` in models.py line 30. -/
def isBraceChar (c : Char) : Bool := c = '{' || c = '}'

/-- The character set `'"'` used by `strip('\x22')` in models.py line 32. -/
def isQuoteChar (c : Char) : Bool := c = '"'

/-- Python `str.split(sep)` for a one-character separator.
`[] ↦ [[]]`, matching Python where `"".split(",") == [""]`. -/
def splitChar (c : Char) : List Char → List (List Char)
  | [] => [[]]
  | a :: rest =>
    match splitChar c rest with
    | [] => [[]]
    | h :: t => if a = c then [] :: h :: t else (a :: h) :: t

/-- Tag decoding, models.py lines 30-32: strip the outer braces, return
`[]` for an empty payload, otherwise split on commas, drop tokens that
are whitespace-only, and for each kept token strip quotes then
whitespace. -/
def decodeTagsL (s : List Char) : List (List Char) :=
  let tags_str := pyStrip isBraceChar s
  if tags_str = [] then []
  else
    ((splitChar ',' tags_str).filter (fun t => pyStrip Char.isWhitespace t ≠ [])).map
      (fun t => pyStrip Char.isWhitespace (pyStrip isQuoteChar t))

/-- Modelled from the spec: the repository has no write path, so the tag
ENCODER does not exist in src/.  Spec §6: tags are persisted as a
"delimited-list text encoding (brace-delimited, comma-separated,
optionally quoted tokens)"; the worked example in §8 shows that a token
with internal whitespace is quoted (`{electronics,"home goods"}`).
A token is quoted when it is empty or contains a character that would
disturb the encoding (comma, brace, quote, whitespace). -/
def needsQuote (t : List Char) : Bool :=
  t.isEmpty || t.any (fun c => c = ',' || c = '{' || c = '}' || c = '"' || c.isWhitespace)

/-- Modelled from the spec: encode one tag token, quoting when needed. -/
def encTok (t : List Char) : List Char :=
  if needsQuote t then '"' :: (t ++ ['"']) else t

/-- Join encoded tokens with a separator character. -/
def joinWith (c : Char) : List (List Char) → List Char
  | [] => []
  | [x] => x
  | x :: y :: xs => x ++ c :: joinWith c (y :: xs)

/-- Modelled from the spec: the full tag encoder — brace-delimited,
comma-separated, optionally quoted tokens (spec §6). -/
def encodeTags (ts : List (List Char)) : List Char :=
  '{' :: (joinWith ',' (ts.map encTok) ++ ['}'])

/-- One transaction row; models.py lines 5-23.  Every column except the
primary key is nullable. -/
structure SalesTransaction where
  transaction_id : String
  date : Option Int
  customer_id : Option String
  customer_name : Option String
  phone_number : Option String
  gender : Option String
  age : Option Int
  customer_region : Option String
  product_category : Option String
  quantity : Option Int
  price_per_unit : Option ℚ
  total_amount : Option ℚ
  discount : Option ℚ
  payment_method : Option String
  tags : Option String
  deriving DecidableEq

/-- The serialized form returned by `to_dict` (models.py lines 34-49):
the three money fields are plain numbers (never null), the date is an
optional ISO string, tags are a decoded list. -/
structure TransactionDict where
  transaction_id : String
  date : Option String
  customer_id : Option String
  customer_name : Option String
  phone_number : Option String
  gender : Option String
  age : Option Int
  customer_region : Option String
  product_category : Option String
  quantity : Option Int
  price_per_unit : ℚ
  total_amount : ℚ
  discount : ℚ
  payment_method : Option String
  tags : List String
  deriving DecidableEq

/-- Rendering of a stored date, models.py line 36 (`isoformat`); the
claims only inspect null versus non-null, so the day number is printed
directly. -/
def isoDate (d : Int) : String := toString d

/-- Python truthiness-based coercion `float(x) if x else 0` used in
models.py lines 45-47: `None` and `0` are falsy and give `0`. -/
def pyFloatOr0 (x : Option ℚ) : ℚ :=
  match x with
  | none => 0
  | some v => if v = 0 then 0 else v

/-- models.py lines 25-49, `SalesTransaction.to_dict`. -/
def SalesTransaction.to_dict (r : SalesTransaction) : TransactionDict :=
  let tags_list : List String :=
    match r.tags with
    | none => []
    | some s => if s = "" then [] else (decodeTagsL s.data).map (fun cs => String.mk cs)
  { transaction_id := r.transaction_id
    date := r.date.map (fun d => isoDate d)
    customer_id := r.customer_id
    customer_name := r.customer_name
    phone_number := r.phone_number
    gender := r.gender
    age := r.age
    customer_region := r.customer_region
    product_category := r.product_category
    quantity := r.quantity
    price_per_unit := pyFloatOr0 r.price_per_unit
    total_amount := pyFloatOr0 r.total_amount
    discount := pyFloatOr0 r.discount
    payment_method := r.payment_method
    tags := tags_list }

/-- The request-scoped filter parameters shared by `get_transactions`
(main.py lines 123-131) and `get_statistics` (main.py lines 225-233).
FastAPI delivers each multi-select parameter as `None` or a list; the
code tests plain truthiness (`if customer_regions:`), under which `None`
and `[]` behave identically, so both are modelled as `[]`. -/
structure FilterSelection where
  customer_regions : List String
  genders : List String
  age_ranges : List String
  product_categories : List String
  tags : List String
  payment_methods : List String
  start_date : Option Int
  end_date : Option Int
  search : Option String

/-- The all-empty filter selection (a request with no filters). -/
def emptyFS : FilterSelection :=
  { customer_regions := [], genders := [], age_ranges := [],
    product_categories := [], tags := [], payment_methods := [],
    start_date := none, end_date := none, search := none }

/-- Python `str.strip()` (no argument): strip whitespace from both
ends of a string. -/
def pyTrim (s : String) : String :=
  String.mk (pyStrip Char.isWhitespace s.data)

/-- Python `str.lower()` / SQL `lower()`, ASCII case folding. -/
def pyLower (s : String) : String :=
  String.mk (s.data.map Char.toLower)

/-- Value of decimal digits, for the model of Python `int(str)`. -/
def digitsToNat (ds : List Char) : Nat :=
  ds.foldl (fun a c => 10 * a + (c.toNat - 48)) 0

/-- Model of Python `int(str)`: optional surrounding whitespace, an
optional sign, then a non-empty digit string; anything else raises
`ValueError` (which the endpoint surfaces as HTTP 500). -/
def pyInt (s : String) : Except Unit Int :=
  match pyStrip Char.isWhitespace s.data with
  | [] => Except.error ()
  | '-' :: ds =>
      if ds ≠ [] ∧ ds.all Char.isDigit then Except.ok (-(digitsToNat ds : Int))
      else Except.error ()
  | '+' :: ds =>
      if ds ≠ [] ∧ ds.all Char.isDigit then Except.ok (digitsToNat ds : Int)
      else Except.error ()
  | ds =>
      if ds.all Char.isDigit then Except.ok (digitsToNat ds : Int)
      else Except.error ()

/-- One iteration of the age-range loop, main.py lines 158-163: a token
without `-` is skipped (`ok none`); a token with `-` must split into
exactly two integer parts (`start, end = map(int, age_range.split("-"))`),
otherwise the `ValueError` escapes to the handler. -/
def parseAgeToken (tok : String) : Except Unit (Option (Int × Int)) :=
  if tok.data.contains '-' then
    match splitChar '-' tok.data with
    | [a, b] => do
        let s ← pyInt (String.mk a)
        let e ← pyInt (String.mk b)
        Except.ok (some (s, e))
    | _ => Except.error ()
  else Except.ok none

/-- The whole age-condition loop, main.py lines 157-163: collect the
parsed `(start, end)` pairs in token order. -/
def collectAgeConds : List String → Except Unit (List (Int × Int))
  | [] => Except.ok []
  | tok :: rest => do
      let c ← parseAgeToken tok
      let cs ← collectAgeConds rest
      match c with
      | none => Except.ok cs
      | some cond => Except.ok (cond :: cs)

/-- SQL `col IN (list)` on a nullable column: `NULL` never matches. -/
def inStrSet (v : Option String) (sel : List String) : Bool :=
  match v with
  | some s => sel.contains s
  | none => false

/-- SQL `age >= start AND age <= end` on the nullable age column
(main.py line 162); inclusive on both ends, false on `NULL`. -/
def ageInRange (cond : Int × Int) (r : SalesTransaction) : Bool :=
  match r.age with
  | some a => decide (cond.1 ≤ a) && decide (a ≤ cond.2)
  | none => false

/-- Substring test used to model SQL `LIKE '%tag%'` (main.py line 175). -/
def containsSeq (n h : List Char) : Bool :=
  match h with
  | [] => n.isEmpty
  | _ :: t => List.isPrefixOf n h || containsSeq n t

/-- SQL `tags LIKE '%tag%'` on the raw encoded tags text: substring
match, false on `NULL`. -/
def tagLike (tag : String) (r : SalesTransaction) : Bool :=
  match r.tags with
  | some t => containsSeq tag.data t.data
  | none => false

/-- SQL `date >= start_date` on the nullable date column. -/
def dateGE (sd : Int) (r : SalesTransaction) : Bool :=
  match r.date with
  | some d => decide (sd ≤ d)
  | none => false

/-- SQL `date <= end_date` on the nullable date column. -/
def dateLE (ed : Int) (r : SalesTransaction) : Bool :=
  match r.date with
  | some d => decide (d ≤ ed)
  | none => false

/-- The search predicate of main.py lines 192-197:
`lower(customer_name) == trimmed.lower() OR phone_number == trimmed`;
both comparisons are false on `NULL`. -/
def searchMatch (trimmed : String) (r : SalesTransaction) : Bool :=
  (match r.customer_name with
   | some n => pyLower n == pyLower trimmed
   | none => false) ||
  (match r.phone_number with
   | some p => p == trimmed
   | none => false)

/-- The filter chain of `get_transactions`, main.py lines 146-197.
Each clause is applied only when its selection is truthy, exactly as in
the source. -/
def applyFiltersList (fs : FilterSelection) (rows : List SalesTransaction) :
    Except Unit (List SalesTransaction) := do
  let q := rows
  let q := if fs.customer_regions.isEmpty then q
           else q.filter (fun r => inStrSet r.customer_region fs.customer_regions)
  let q := if fs.genders.isEmpty then q
           else q.filter (fun r => inStrSet r.gender fs.genders)
  let q ← if fs.age_ranges.isEmpty then Except.ok q else do
      let conds ← collectAgeConds fs.age_ranges
      Except.ok (if conds.isEmpty then q
                 else q.filter (fun r => conds.any (fun c => ageInRange c r)))
  let q := if fs.product_categories.isEmpty then q
           else q.filter (fun r => inStrSet r.product_category fs.product_categories)
  let q := if fs.tags.isEmpty then q
           else
             let tag_conds := fs.tags
             if tag_conds.isEmpty then q
             else q.filter (fun r => tag_conds.any (fun t => tagLike t r))
  let q := if fs.payment_methods.isEmpty then q
           else q.filter (fun r => inStrSet r.payment_method fs.payment_methods)
  let q := match fs.start_date with
           | none => q
           | some sd => q.filter (fun r => dateGE sd r)
  let q := match fs.end_date with
           | none => q
           | some ed => q.filter (fun r => dateLE ed r)
  let q := match fs.search with
           | none => q
           | some s =>
             if s = "" then q
             else
               let trimmed := pyTrim s
               if trimmed = "" then q
               else q.filter (fun r => searchMatch trimmed r)
  Except.ok q

/-- The filter chain of `get_statistics`, main.py lines 240-286 — the
statistics endpoint repeats the same nine clauses verbatim. -/
def applyFiltersStats (fs : FilterSelection) (rows : List SalesTransaction) :
    Except Unit (List SalesTransaction) := do
  let q := rows
  let q := if fs.customer_regions.isEmpty then q
           else q.filter (fun r => inStrSet r.customer_region fs.customer_regions)
  let q := if fs.genders.isEmpty then q
           else q.filter (fun r => inStrSet r.gender fs.genders)
  let q ← if fs.age_ranges.isEmpty then Except.ok q else do
      let conds ← collectAgeConds fs.age_ranges
      Except.ok (if conds.isEmpty then q
                 else q.filter (fun r => conds.any (fun c => ageInRange c r)))
  let q := if fs.product_categories.isEmpty then q
           else q.filter (fun r => inStrSet r.product_category fs.product_categories)
  let q := if fs.tags.isEmpty then q
           else
             let tag_conds := fs.tags
             if tag_conds.isEmpty then q
             else q.filter (fun r => tag_conds.any (fun t => tagLike t r))
  let q := if fs.payment_methods.isEmpty then q
           else q.filter (fun r => inStrSet r.payment_method fs.payment_methods)
  let q := match fs.start_date with
           | none => q
           | some sd => q.filter (fun r => dateGE sd r)
  let q := match fs.end_date with
           | none => q
           | some ed => q.filter (fun r => dateLE ed r)
  let q := match fs.search with
           | none => q
           | some s =>
             if s = "" then q
             else
               let trimmed := pyTrim s
               if trimmed = "" then q
               else q.filter (fun r => searchMatch trimmed r)
  Except.ok q

/-- The class attributes reachable by `getattr(SalesTransaction, sort_by,
None)` in main.py line 204: the fifteen mapped columns, plus the
non-column attributes declared on the class in models.py
(`__tablename__`, `__table_args__`, `to_dict`).  Non-column attributes
are truthy but have no `.asc()`/`.desc()`, so using them raises
`AttributeError`. -/
inductive ClassAttr where
  | col_transaction_id | col_date | col_customer_id | col_customer_name
  | col_phone_number | col_gender | col_age | col_customer_region
  | col_product_category | col_quantity | col_price_per_unit
  | col_total_amount | col_discount | col_payment_method | col_tags
  | attr_tablename | attr_table_args | attr_to_dict
  deriving DecidableEq

/-- Models `getattr(SalesTransaction, name, None)`. -/
def classGetattr (name : String) : Option ClassAttr :=
  match name with
  | "transaction_id" => some .col_transaction_id
  | "date" => some .col_date
  | "customer_id" => some .col_customer_id
  | "customer_name" => some .col_customer_name
  | "phone_number" => some .col_phone_number
  | "gender" => some .col_gender
  | "age" => some .col_age
  | "customer_region" => some .col_customer_region
  | "product_category" => some .col_product_category
  | "quantity" => some .col_quantity
  | "price_per_unit" => some .col_price_per_unit
  | "total_amount" => some .col_total_amount
  | "discount" => some .col_discount
  | "payment_method" => some .col_payment_method
  | "tags" => some .col_tags
  | "__tablename__" => some .attr_tablename
  | "__table_args__" => some .attr_table_args
  | "to_dict" => some .attr_to_dict
  | _ => none

/-- Lexicographic order on character lists, used to model the database
collation for string columns.  No claim depends on the particular
collation, only on sorting being a permutation. -/
def lexLe : List Char → List Char → Bool
  | [], _ => true
  | _ :: _, [] => false
  | a :: as, b :: bs => if a = b then lexLe as bs else decide (a < b)

/-- Order on nullable string columns (nulls first). -/
def optStrLe (a b : Option String) : Bool :=
  match a, b with
  | none, _ => true
  | some _, none => false
  | some x, some y => lexLe x.data y.data

/-- Order on nullable integer columns (nulls first). -/
def optIntLe (a b : Option Int) : Bool :=
  match a, b with
  | none, _ => true
  | some _, none => false
  | some x, some y => decide (x ≤ y)

/-- Order on nullable rational columns (nulls first). -/
def optRatLe (a b : Option ℚ) : Bool :=
  match a, b with
  | none, _ => true
  | some _, none => false
  | some x, some y => decide (x ≤ y)

/-- The `ORDER BY column ASC` comparison for each sortable column. -/
def colLe (c : ClassAttr) (r1 r2 : SalesTransaction) : Bool :=
  match c with
  | .col_transaction_id => lexLe r1.transaction_id.data r2.transaction_id.data
  | .col_date => optIntLe r1.date r2.date
  | .col_customer_id => optStrLe r1.customer_id r2.customer_id
  | .col_customer_name => optStrLe r1.customer_name r2.customer_name
  | .col_phone_number => optStrLe r1.phone_number r2.phone_number
  | .col_gender => optStrLe r1.gender r2.gender
  | .col_age => optIntLe r1.age r2.age
  | .col_customer_region => optStrLe r1.customer_region r2.customer_region
  | .col_product_category => optStrLe r1.product_category r2.product_category
  | .col_quantity => optIntLe r1.quantity r2.quantity
  | .col_price_per_unit => optRatLe r1.price_per_unit r2.price_per_unit
  | .col_total_amount => optRatLe r1.total_amount r2.total_amount
  | .col_discount => optRatLe r1.discount r2.discount
  | .col_payment_method => optStrLe r1.payment_method r2.payment_method
  | .col_tags => optStrLe r1.tags r2.tags
  | _ => true

/-- Insert into a sorted list (one step of the model of the database
sort). -/
def insSorted (le : SalesTransaction → SalesTransaction → Bool) :
    SalesTransaction → List SalesTransaction → List SalesTransaction
  | a, [] => [a]
  | a, b :: bs => if le a b then a :: b :: bs else b :: insSorted le a bs

/-- Insertion sort modelling the database `ORDER BY`. -/
def insSort (le : SalesTransaction → SalesTransaction → Bool) :
    List SalesTransaction → List SalesTransaction
  | [] => []
  | a :: as => insSorted le a (insSort le as)

/-- The sorting step of `get_transactions`, main.py lines 202-209:
skip when `sort_by` is falsy; `getattr` misses are skipped
(`if column:` is false on `None`); a truthy non-column attribute has no
`.desc()`/`.asc()` and raises `AttributeError` (HTTP 500). -/
def sortStep (sort_by sort_order : String) (l : List SalesTransaction) :
    Except Unit (List SalesTransaction) :=
  if sort_by = "" then Except.ok l
  else
    match classGetattr sort_by with
    | none => Except.ok l
    | some .attr_tablename => Except.error ()
    | some .attr_table_args => Except.error ()
    | some .attr_to_dict => Except.error ()
    | some c =>
        if sort_order = "desc" then Except.ok (insSort (fun a b => colLe c b a) l)
        else Except.ok (insSort (colLe c) l)

/-- Response shape of `get_transactions`, main.py lines 214-219. -/
structure ListingResponse where
  total : Nat
  limit : Int
  offset : Nat
  data : List TransactionDict
  deriving DecidableEq

/-- main.py lines 122-219, `get_transactions`: clamp the limit, filter,
count before pagination, sort, paginate, serialize. -/
def get_transactions (fs : FilterSelection) (sort_by sort_order : String)
    (limit : Int) (offset : Nat) (rows : List SalesTransaction) :
    Except Unit ListingResponse := do
  let safe_limit := max 10 (min limit 200)
  let filtered ← applyFiltersList fs rows
  let total_count := filtered.length
  let srtd ← sortStep sort_by sort_order filtered
  let page := (srtd.drop offset).take safe_limit.toNat
  Except.ok { total := total_count, limit := safe_limit, offset := offset,
              data := page.map SalesTransaction.to_dict }

/-- SQL `SUM` over a nullable integer column: ignores `NULL` values and
is `NULL` when nothing remains. -/
def sqlSumInt (l : List (Option Int)) : Option Int :=
  match l.filterMap id with
  | [] => none
  | vs => some vs.sum

/-- SQL `SUM` over a nullable rational column. -/
def sqlSumRat (l : List (Option ℚ)) : Option ℚ :=
  match l.filterMap id with
  | [] => none
  | vs => some vs.sum

/-- Python `x or d` on a nullable integer (`None` and `0` are falsy). -/
def pyOrInt (x : Option Int) (d : Int) : Int :=
  match x with
  | none => d
  | some v => if v = 0 then d else v

/-- Python `x or d` on a nullable rational. -/
def pyOrRat (x : Option ℚ) (d : ℚ) : ℚ :=
  match x with
  | none => d
  | some v => if v = 0 then d else v

/-- Response shape of `get_statistics`, main.py lines 296-301. -/
structure StatsResponse where
  total_units : Int
  total_amount : ℚ
  total_discount : ℚ
  total_transactions : Nat
  deriving DecidableEq

/-- main.py lines 224-301, `get_statistics`: same filters, then the four
aggregates.  `COUNT(transaction_id)` counts non-null keys; the key is the
primary key so this is the row count. -/
def get_statistics (fs : FilterSelection) (rows : List SalesTransaction) :
    Except Unit StatsResponse := do
  let filtered ← applyFiltersStats fs rows
  let total_units := sqlSumInt (filtered.map (fun r => r.quantity))
  let total_amount := sqlSumRat (filtered.map (fun r => r.total_amount))
  let total_discount := sqlSumRat (filtered.map (fun r => r.discount))
  let total_transactions := (filtered.map (fun r => r.transaction_id)).length
  Except.ok { total_units := pyOrInt total_units 0
              total_amount := pyOrRat total_amount 0
              total_discount := pyOrRat total_discount 0
              total_transactions := if total_transactions = 0 then 0 else total_transactions }

/-- SQL `MIN` over the nullable age column. -/
def sqlMinInt (l : List (Option Int)) : Option Int :=
  match l.filterMap id with
  | [] => none
  | v :: vs => some (vs.foldl min v)

/-- SQL `MAX` over the nullable age column. -/
def sqlMaxInt (l : List (Option Int)) : Option Int :=
  match l.filterMap id with
  | [] => none
  | v :: vs => some (vs.foldl max v)

/-- The `min_age` value as computed in main.py line 102: `... or 0` under Python
truthiness (`None` and `0` both default to `0`). -/
def effMinAge (rows : List SalesTransaction) : Int :=
  pyOrInt (sqlMinInt (rows.map (fun r => r.age))) 0

/-- The `max_age` value as computed in main.py line 103: `... or 100`. -/
def effMaxAge (rows : List SalesTransaction) : Int :=
  pyOrInt (sqlMaxInt (rows.map (fun r => r.age))) 100

/-- Fuel-bounded model of Python `range(lo, hi, 10)`: emit `lo` and step
by 10 while `lo < hi`.  The fuel `(hi - lo).toNat` always suffices since
each step shrinks `hi - lo` by 10. -/
def rangeBy10Aux (lo hi : Int) : Nat → List Int
  | 0 => []
  | n + 1 => if lo < hi then lo :: rangeBy10Aux (lo + 10) hi n else []

/-- Python `range(min_age, max_age, 10)` from main.py line 107. -/
def rangeBy10 (lo hi : Int) : List Int :=
  rangeBy10Aux lo hi (hi - lo).toNat

/-- The f-string `f"{start}-{start+9}"` of main.py line 108. -/
def ageToken (s : Int) : String := toString s ++ "-" ++ toString (s + 9)

/-- main.py lines 101-108: the `age_ranges` list of the filter-options
endpoint. -/
def get_filter_options_age_ranges (rows : List SalesTransaction) : List String :=
  let min_age := effMinAge rows
  let max_age := effMaxAge rows
  (rangeBy10 min_age max_age).map ageToken

/-- Spec §3 combining rule, one dimension: an empty selection imposes no
constraint, otherwise the row must match ANY selected value. -/
def dimAny {α : Type} (sel : List α) (p : α → Bool) : Bool :=
  sel.isEmpty || sel.any p

/-- The optional lower date bound as a row predicate. -/
def startDatePred (o : Option Int) (r : SalesTransaction) : Bool :=
  match o with
  | none => true
  | some sd => dateGE sd r

/-- The optional upper date bound as a row predicate. -/
def endDatePred (o : Option Int) (r : SalesTransaction) : Bool :=
  match o with
  | none => true
  | some ed => dateLE ed r

/-- The optional search string as a row predicate: an absent, empty or
whitespace-only search imposes no constraint. -/
def searchPred (o : Option String) (r : SalesTransaction) : Bool :=
  match o with
  | none => true
  | some s =>
      if s = "" then true
      else if pyTrim s = "" then true
      else searchMatch (pyTrim s) r

/-- Spec §3: the full combining rule for a Filter Selection against one
row — within a dimension the selected values are OR-combined, across
dimensions the selections are AND-combined, and empty selections impose no
constraint.  The per-value predicates are those of spec §4.1 (membership
for the four categorical dimensions, inclusive interval for parsed age
ranges, substring containment for tags, the exact search match). -/
def matchesSelection (fs : FilterSelection) (conds : List (Int × Int))
    (r : SalesTransaction) : Bool :=
  dimAny fs.customer_regions (fun v => r.customer_region == some v) &&
  dimAny fs.genders (fun v => r.gender == some v) &&
  (conds.isEmpty || conds.any (fun c => ageInRange c r)) &&
  dimAny fs.product_categories (fun v => r.product_category == some v) &&
  dimAny fs.tags (fun t => tagLike t r) &&
  dimAny fs.payment_methods (fun v => r.payment_method == some v) &&
  startDatePred fs.start_date r &&
  endDatePred fs.end_date r &&
  searchPred fs.search r

/-- A blank row used as the base of the concrete witnesses. -/
def row0 : SalesTransaction :=
  { transaction_id := "t1", date := none, customer_id := none, customer_name := none,
    phone_number := none, gender := none, age := none, customer_region := none,
    product_category := none, quantity := none, price_per_unit := none,
    total_amount := none, discount := none, payment_method := none, tags := none }

/-- A row with only the age set. -/
def rowAge (a : Int) : SalesTransaction := { row0 with age := some a }

/-- A row with only the region set. -/
def rowRegion (s : String) : SalesTransaction := { row0 with customer_region := some s }

/-- A row with only the customer name set. -/
def rowName (s : String) : SalesTransaction := { row0 with customer_name := some s }

/-- A selection filtering on one region. -/
def fsRegions : FilterSelection := { emptyFS with customer_regions := ["North"] }

/-- Two rows in distinct regions. -/
def rowsNS : List SalesTransaction := [rowRegion "North", rowRegion "South"]

/-- A selection with two regions OR-combined and a gender AND-combined. -/
def fsW : FilterSelection :=
  { emptyFS with customer_regions := ["North", "South"], genders := ["M"] }

/-- Matches fsW: region North and gender M. -/
def rowNM : SalesTransaction :=
  { row0 with customer_region := some "North", gender := some "M" }

/-- Fails fsW on the gender dimension. -/
def rowSF : SalesTransaction :=
  { row0 with customer_region := some "South", gender := some "F" }

/-- Whether an endpoint call succeeded (did not surface HTTP 500). -/
def exceptOk {ε α : Type} : Except ε α → Bool
  | Except.ok _ => true
  | Except.error _ => false

/-- A selection no row matches. -/
def fsNoMatch : FilterSelection := { emptyFS with customer_regions := ["Nowhere"] }

/-- A selection with only age-range tokens. -/
def ageOnlyFS (toks : List String) : FilterSelection :=
  { emptyFS with age_ranges := toks }

/-- A selection with only a search string. -/
def searchOnlyFS (s : String) : FilterSelection := { emptyFS with search := some s }

/-- A row with a name and a phone number. -/
def rowJohn : SalesTransaction :=
  { row0 with customer_name := some "John", phone_number := some "123" }

/-- Stored name "John Smith". -/
def rowJS : SalesTransaction := rowName "John Smith"

/-- Stored name "John Smithson". -/
def rowJSon : SalesTransaction := rowName "John Smithson"

theorem if_filter_or {α : Type} (b : Bool) (p : α → Bool) (l : List α) :
    (if b then l else l.filter p) = l.filter (fun a => b || p a) := by
  cases b <;> simp

theorem if_if_filter_or {α : Type} (b c : Bool) (p : α → Bool) (l : List α) :
    (if b then l else if c then l else l.filter p) =
      l.filter (fun a => b || (c || p a)) := by
  cases b <;> cases c <;> simp

theorem match_start_filter (o : Option Int) (l : List SalesTransaction) :
    (match o with
     | none => l
     | some sd => l.filter (fun r => dateGE sd r)) =
      l.filter (fun r => startDatePred o r) := by
  cases o <;> simp [startDatePred]

theorem match_end_filter (o : Option Int) (l : List SalesTransaction) :
    (match o with
     | none => l
     | some ed => l.filter (fun r => dateLE ed r)) =
      l.filter (fun r => endDatePred o r) := by
  cases o <;> simp [endDatePred]

theorem match_search_filter (o : Option String) (l : List SalesTransaction) :
    (match o with
     | none => l
     | some s =>
         if s = "" then l
         else if pyTrim s = "" then l
         else l.filter (fun r => searchMatch (pyTrim s) r)) =
      l.filter (fun r => searchPred o r) := by
  cases o with
  | none => simp [searchPred]
  | some s =>
      by_cases h1 : s = "" <;> by_cases h2 : pyTrim s = "" <;>
        simp [searchPred, h1, h2]

theorem inStrSet_eq_any (v : Option String) (sel : List String) :
    inStrSet v sel = sel.any (fun x => v == some x) := by
  cases v with
  | none =>
      show false = sel.any _
      induction sel with
      | nil => rfl
      | cons a l ih => simp
  | some s =>
      show sel.contains s = _
      rw [Bool.eq_iff_iff]
      simp [List.elem_iff, List.any_eq_true, beq_iff_eq]

theorem exceptBind_ok {ε α β : Type} (a : α) (f : α → Except ε β) :
    (Except.ok a : Except ε α) >>= f = f a := rfl

theorem bool_or_self_left (a b : Bool) : (a || (a || b)) = (a || b) := by
  cases a <;> simp

set_option maxHeartbeats 1000000 in
theorem applyFiltersList_eq_filter (fs : FilterSelection) (rows : List SalesTransaction)
    (conds : List (Int × Int)) (h : collectAgeConds fs.age_ranges = Except.ok conds) :
    applyFiltersList fs rows =
      Except.ok (rows.filter (fun r => matchesSelection fs conds r)) := by
  rcases fs with ⟨regs, gens, ages, cats, tgs, pays, sd, ed, se⟩
  simp only at h
  have hAgeEmpty : ages.isEmpty = true → conds = [] := by
    intro he
    have hnil : ages = [] := by
      cases hl : ages with
      | nil => rfl
      | cons a l => rw [hl] at he; simp at he
    rw [hnil] at h
    simp [collectAgeConds] at h
    exact h
  by_cases hE : ages.isEmpty
  · have hc := hAgeEmpty hE
    subst hc
    simp only [applyFiltersList, hE, if_true, exceptBind_ok]
    cases se with
    | none =>
        cases sd <;> cases ed <;>
          (simp only [if_filter_or]
           simp only [List.filter_filter]
           refine congrArg Except.ok (List.filter_congr ?_)
           intro r hr
           simp [matchesSelection, dimAny, inStrSet_eq_any, startDatePred, endDatePred,
                 searchPred, bool_or_self_left, Bool.and_comm, Bool.and_left_comm,
                 Bool.and_assoc])
    | some s =>
        by_cases h1 : s = ""
        · subst h1
          cases sd <;> cases ed <;>
            (simp only [if_filter_or]
             simp only [List.filter_filter]
             refine congrArg Except.ok (List.filter_congr ?_)
             intro r hr
             simp [matchesSelection, dimAny, inStrSet_eq_any, startDatePred, endDatePred,
                   searchPred, bool_or_self_left, Bool.and_comm, Bool.and_left_comm,
                   Bool.and_assoc])
        · by_cases h2 : pyTrim s = "" <;>
            cases sd <;> cases ed <;>
              (simp only [h1, h2, if_true, if_false]
               simp only [if_filter_or]
               simp only [List.filter_filter]
               refine congrArg Except.ok (List.filter_congr ?_)
               intro r hr
               simp [matchesSelection, dimAny, inStrSet_eq_any, startDatePred,
                     endDatePred, searchPred, h1, h2, bool_or_self_left, Bool.and_comm,
                     Bool.and_left_comm, Bool.and_assoc])
  · have hE2 : ages.isEmpty = false := by
      cases hb : ages.isEmpty
      · rfl
      · exact absurd hb hE
    simp only [applyFiltersList, hE2, Bool.false_eq_true, if_false, h, exceptBind_ok]
    cases se with
    | none =>
        cases sd <;> cases ed <;>
          (simp only [if_filter_or]
           simp only [List.filter_filter]
           refine congrArg Except.ok (List.filter_congr ?_)
           intro r hr
           simp [matchesSelection, dimAny, inStrSet_eq_any, startDatePred, endDatePred,
                 searchPred, bool_or_self_left, Bool.and_comm, Bool.and_left_comm,
                 Bool.and_assoc])
    | some s =>
        by_cases h1 : s = ""
        · subst h1
          cases sd <;> cases ed <;>
            (simp only [if_filter_or]
             simp only [List.filter_filter]
             refine congrArg Except.ok (List.filter_congr ?_)
             intro r hr
             simp [matchesSelection, dimAny, inStrSet_eq_any, startDatePred, endDatePred,
                   searchPred, bool_or_self_left, Bool.and_comm, Bool.and_left_comm,
                   Bool.and_assoc])
        · by_cases h2 : pyTrim s = "" <;>
            cases sd <;> cases ed <;>
              (simp only [h1, h2, if_true, if_false]
               simp only [if_filter_or]
               simp only [List.filter_filter]
               refine congrArg Except.ok (List.filter_congr ?_)
               intro r hr
               simp [matchesSelection, dimAny, inStrSet_eq_any, startDatePred,
                     endDatePred, searchPred, h1, h2, bool_or_self_left, Bool.and_comm,
                     Bool.and_left_comm, Bool.and_assoc])

theorem exceptBind_error {ε α β : Type} (e : ε) (f : α → Except ε β) :
    (Except.error e : Except ε α) >>= f = Except.error e := rfl

theorem applyFiltersStats_eq (fs : FilterSelection) (rows : List SalesTransaction) :
    applyFiltersStats fs rows = applyFiltersList fs rows := rfl

theorem length_insSorted (le : SalesTransaction → SalesTransaction → Bool)
    (a : SalesTransaction) (l : List SalesTransaction) :
    (insSorted le a l).length = l.length + 1 := by
  induction l with
  | nil => rfl
  | cons b bs ih =>
      simp only [insSorted]
      split
      · simp
      · simp [ih]

theorem length_insSort (le : SalesTransaction → SalesTransaction → Bool)
    (l : List SalesTransaction) : (insSort le l).length = l.length := by
  induction l with
  | nil => rfl
  | cons a as ih => simp [insSort, length_insSorted, ih]

theorem sortStep_length (sb so : String) (l l2 : List SalesTransaction)
    (h : sortStep sb so l = Except.ok l2) : l2.length = l.length := by
  unfold sortStep at h
  split at h
  · injection h with h2
    rw [← h2]
  · split at h
    all_goals first
      | (injection h with h2; rw [← h2])
      | cases h
      | (split at h <;> (injection h with h2; rw [← h2, length_insSort]))

theorem nat_if_zero (n : Nat) : (if n = 0 then 0 else n) = n := by
  split <;> omega

/-- C1: for every Filter Selection, when the Listing Service answers, the
Statistics Service answers too and its total_transactions equals the
listing total, whatever the sort, limit and offset were. -/
theorem stats_total_eq_listing_total (fs : FilterSelection)
    (sort_by sort_order : String) (limit : Int) (offset : Nat)
    (rows : List SalesTransaction) (res : ListingResponse)
    (h : get_transactions fs sort_by sort_order limit offset rows = Except.ok res) :
    ∃ st : StatsResponse, get_statistics fs rows = Except.ok st ∧
      st.total_transactions = res.total := by
  unfold get_transactions at h
  cases hf : applyFiltersList fs rows with
  | error e =>
      rw [hf] at h
      simp only [exceptBind_error] at h
      exact absurd h (by simp)
  | ok filtered =>
      rw [hf] at h
      simp only [exceptBind_ok] at h
      cases hs : sortStep sort_by sort_order filtered with
      | error e =>
          rw [hs] at h
          simp only [exceptBind_error] at h
          exact absurd h (by simp)
      | ok srtd =>
          rw [hs] at h
          simp only [exceptBind_ok] at h
          injection h with h2
          unfold get_statistics
          rw [applyFiltersStats_eq, hf]
          simp only [exceptBind_ok]
          refine ⟨_, rfl, ?_⟩
          rw [← h2]
          simp [List.length_map, nat_if_zero]
          intro h3
          rw [h3]
          rfl

/-- Witness for C1 at a concrete filtered request. -/
theorem stats_total_eq_listing_total_witness :
    (get_statistics fsRegions rowsNS).map (fun st => st.total_transactions) =
      Except.ok 1 := by
  obtain ⟨st, hst, heq⟩ := stats_total_eq_listing_total fsRegions "customer_name" "asc"
    50 0 rowsNS
    { total := 1, limit := 50, offset := 0, data := [(rowRegion "North").to_dict] }
    (by decide)
  rw [hst]
  show Except.ok st.total_transactions = Except.ok 1
  rw [heq]

/-- C2: the filter chain is one pass of the combining rule — per
dimension the values are OR-combined, dimensions are AND-combined, empty selections
impose no constraint — and a request with no filters returns the
unfiltered store count as its total. -/
theorem filters_or_within_and_across (fs : FilterSelection)
    (rows : List SalesTransaction) (conds : List (Int × Int))
    (h : collectAgeConds fs.age_ranges = Except.ok conds) :
    applyFiltersList fs rows =
      Except.ok (rows.filter (fun r => matchesSelection fs conds r)) ∧
    applyFiltersList emptyFS rows = Except.ok rows ∧
    (∀ limit : Int, ∀ offset : Nat, ∃ res : ListingResponse,
      get_transactions emptyFS "customer_name" "asc" limit offset rows =
        Except.ok res ∧ res.total = rows.length) := by
  have hEmpty : applyFiltersList emptyFS rows = Except.ok rows := by
    rw [applyFiltersList_eq_filter emptyFS rows [] rfl]
    exact congrArg Except.ok (List.filter_eq_self.mpr (fun a _ => rfl))
  refine ⟨applyFiltersList_eq_filter fs rows conds h, hEmpty, ?_⟩
  intro limit offset
  unfold get_transactions
  rw [hEmpty]
  simp only [exceptBind_ok]
  have hs : sortStep "customer_name" "asc" rows =
      Except.ok (insSort (colLe .col_customer_name) rows) := rfl
  rw [hs]
  simp only [exceptBind_ok]
  exact ⟨_, rfl, rfl⟩

/-- Witness for C2: OR within the region dimension, AND with the gender
dimension, and the no-filter total. -/
theorem filters_or_within_and_across_witness :
    applyFiltersList fsW [rowNM, rowSF] = Except.ok [rowNM] ∧
    (get_transactions emptyFS "customer_name" "asc" 50 0 [rowNM, rowSF]).map
      (fun r => r.total) = Except.ok 2 := by
  obtain ⟨h1, h2, h3⟩ := filters_or_within_and_across fsW [rowNM, rowSF] [] (by decide)
  constructor
  · rw [h1]
    decide
  · obtain ⟨res, hres, htot⟩ := h3 50 0
    rw [hres]
    show Except.ok res.total = Except.ok 2
    rw [htot]
    rfl

/-- C4: the Listing Service clamps the page size into [10, 200]: the
returned effective limit is max(10, min(limit, 200)), the page never
exceeds that bound, success never depends on the requested limit (no
out-of-range rejection), and a limit-5 request at offset 0 returns
exactly 10 records when at least 10 rows match. -/
theorem listing_limit_clamp (fs : FilterSelection) (sb so : String) (limit : Int)
    (offset : Nat) (rows : List SalesTransaction) :
    (∀ res, get_transactions fs sb so limit offset rows = Except.ok res →
        res.limit = max 10 (min limit 200) ∧
        res.data.length ≤ (max 10 (min limit 200)).toNat) ∧
    (∀ limit2 : Int,
        exceptOk (get_transactions fs sb so limit offset rows) =
          exceptOk (get_transactions fs sb so limit2 offset rows)) ∧
    (∀ res, get_transactions fs sb so 5 0 rows = Except.ok res →
        10 ≤ res.total → res.data.length = 10) := by
  refine ⟨?_, ?_, ?_⟩
  · intro res h
    unfold get_transactions at h
    cases hf : applyFiltersList fs rows with
    | error e => rw [hf] at h; simp only [exceptBind_error] at h; exact absurd h (by simp)
    | ok filtered =>
        rw [hf] at h
        simp only [exceptBind_ok] at h
        cases hs : sortStep sb so filtered with
        | error e =>
            rw [hs] at h; simp only [exceptBind_error] at h; exact absurd h (by simp)
        | ok srtd =>
            rw [hs] at h
            simp only [exceptBind_ok] at h
            injection h with h2
            rw [← h2]
            refine ⟨rfl, ?_⟩
            simp [List.length_map, List.length_take]
  · intro limit2
    unfold get_transactions
    cases hf : applyFiltersList fs rows with
    | error e => simp only [hf, exceptBind_error]
    | ok filtered =>
        simp only [hf, exceptBind_ok]
        cases hs : sortStep sb so filtered with
        | error e => simp only [hs, exceptBind_error]
        | ok srtd => simp only [hs, exceptBind_ok]; rfl
  · intro res h hten
    unfold get_transactions at h
    cases hf : applyFiltersList fs rows with
    | error e => rw [hf] at h; simp only [exceptBind_error] at h; exact absurd h (by simp)
    | ok filtered =>
        rw [hf] at h
        simp only [exceptBind_ok] at h
        cases hs : sortStep sb so filtered with
        | error e =>
            rw [hs] at h; simp only [exceptBind_error] at h; exact absurd h (by simp)
        | ok srtd =>
            rw [hs] at h
            simp only [exceptBind_ok] at h
            injection h with h2
            rw [← h2] at hten ⊢
            have hlen := sortStep_length sb so filtered srtd hs
            have hnum : (max 10 (min (5 : Int) 200)).toNat = 10 := by decide
            simp only at hten
            simp [List.length_map, List.length_take, hnum]
            omega

/-- Witness for C4: limit 5 is clamped up to 10 (returning exactly 10 of
the 10 matching rows) and limit 1000 is clamped down to 200. -/
theorem listing_limit_clamp_witness :
    (get_transactions emptyFS "customer_name" "asc" 5 0 (List.replicate 10 row0)).map
      (fun r => r.data.length) = Except.ok 10 ∧
    (get_transactions emptyFS "customer_name" "asc" 1000 0 (List.replicate 10 row0)).map
      (fun r => r.limit) = Except.ok 200 := by
  have hok : get_transactions emptyFS "customer_name" "asc" 5 0 (List.replicate 10 row0) =
      Except.ok { total := 10, limit := 10, offset := 0,
                  data := List.replicate 10 row0.to_dict } := by decide
  have hok2 : get_transactions emptyFS "customer_name" "asc" 1000 0
      (List.replicate 10 row0) =
      Except.ok { total := 10, limit := 200, offset := 0,
                  data := List.replicate 10 row0.to_dict } := by decide
  constructor
  · have h3 := (listing_limit_clamp emptyFS "customer_name" "asc" 5 0
      (List.replicate 10 row0)).2.2 _ hok (by decide)
    rw [hok]
    exact congrArg Except.ok h3
  · have h1 := (listing_limit_clamp emptyFS "customer_name" "asc" 1000 0
      (List.replicate 10 row0)).1 _ hok2
    have hval : max 10 (min (1000 : Int) 200) = 200 := by decide
    rw [hok2]
    exact congrArg Except.ok (h1.1.trans hval)

/-- C9: a Filter Selection under which no rows match makes the
Statistics Service return zero for all four aggregates — a successful
response, not an error or null. -/
theorem stats_zero_when_no_rows (fs : FilterSelection) (rows : List SalesTransaction)
    (h : applyFiltersStats fs rows = Except.ok []) :
    get_statistics fs rows =
      Except.ok { total_units := 0, total_amount := 0, total_discount := 0,
                  total_transactions := 0 } := by
  unfold get_statistics
  rw [h]
  rfl

/-- Witness for C9 on a concrete store and selection. -/
theorem stats_zero_when_no_rows_witness :
    get_statistics fsNoMatch [rowRegion "North"] =
      Except.ok { total_units := 0, total_amount := 0, total_discount := 0,
                  total_transactions := 0 } :=
  stats_zero_when_no_rows fsNoMatch [rowRegion "North"] (by decide)

theorem pyFloatOr0_eq_getD (x : Option ℚ) : pyFloatOr0 x = x.getD 0 := by
  cases x with
  | none => rfl
  | some v => by_cases hv : v = 0 <;> simp [pyFloatOr0, hv]

/-- C10: in every serialized record the three money fields are plain
numbers — a stored NULL (or falsy 0) becomes 0 — while a missing
transaction date is serialized as null. -/
theorem to_dict_numeric_fields (r : SalesTransaction) :
    r.to_dict.price_per_unit = r.price_per_unit.getD 0 ∧
    r.to_dict.total_amount = r.total_amount.getD 0 ∧
    r.to_dict.discount = r.discount.getD 0 ∧
    (r.to_dict.date = none ↔ r.date = none) := by
  refine ⟨pyFloatOr0_eq_getD _, pyFloatOr0_eq_getD _, pyFloatOr0_eq_getD _, ?_⟩
  show r.date.map (fun d => isoDate d) = none ↔ r.date = none
  simp

/-- C5 (code bug): `getattr` also reaches truthy non-column class
attributes; sorting by "to_dict" raises `AttributeError` (HTTP 500)
instead of being ignored, while a name that is no attribute at all is
ignored as the spec demands. -/
theorem sort_field_non_column_errors :
    get_transactions emptyFS "to_dict" "asc" 50 0 [row0] = Except.error () ∧
    get_transactions emptyFS "unknown_column" "asc" 50 0 [row0] =
      Except.ok { total := 1, limit := 50, offset := 0, data := [row0.to_dict] } := by
  constructor <;> decide

/-- C6 counterexample: the malformed token "a-b" (separator present,
non-integer parts) is not silently ignored — the request errors. -/
theorem age_token_error_counterexample :
    get_transactions (ageOnlyFS ["a-b"]) "customer_name" "asc" 50 0 [rowAge 29] =
      Except.error () := by decide

/-- C6 (amended): with successfully parsed conditions, a row passes the
age dimension iff its age lies inclusively within ANY parsed range; a
token without the separator is silently ignored; a token with the
separator that does not parse as two integers raises an error instead
(see the counterexample). -/
theorem age_range_matching (tokens : List String) (conds : List (Int × Int))
    (rows : List SalesTransaction)
    (h : collectAgeConds tokens = Except.ok conds) :
    applyFiltersList (ageOnlyFS tokens) rows =
      Except.ok (rows.filter
        (fun r => conds.isEmpty || conds.any (fun c => ageInRange c r))) ∧
    (∀ tok : String, tok.data.contains '-' = false →
        parseAgeToken tok = Except.ok none) ∧
    (∀ s e a : Int, ageInRange (s, e) (rowAge a) =
        (decide (s ≤ a) && decide (a ≤ e))) := by
  refine ⟨?_, ?_, ?_⟩
  · rw [applyFiltersList_eq_filter (ageOnlyFS tokens) rows conds h]
    congr 1
    apply List.filter_congr
    intro r hr
    simp [matchesSelection, ageOnlyFS, emptyFS, dimAny, startDatePred, endDatePred,
          searchPred]
  · intro tok hc
    unfold parseAgeToken
    rw [hc]
    rfl
  · intro s e a
    rfl

/-- Witness for C6: age 29 matches "20-29" inclusively, not "30-39";
a separator-free token is ignored. -/
theorem age_range_matching_witness :
    applyFiltersList (ageOnlyFS ["20-29", "30-39", "oops"])
        [rowAge 29, rowAge 35, rowAge 15] = Except.ok [rowAge 29, rowAge 35] ∧
    ageInRange (20, 29) (rowAge 29) = true ∧
    ageInRange (30, 39) (rowAge 29) = false ∧
    parseAgeToken "oops" = Except.ok none := by
  obtain ⟨h1, h2, h3⟩ := age_range_matching ["20-29", "30-39", "oops"]
    [(20, 29), (30, 39)] [rowAge 29, rowAge 35, rowAge 15] (by decide)
  refine ⟨?_, by decide, by decide, h2 "oops" (by decide)⟩
  rw [h1]
  decide

/-- C7 counterexample: a whitespace-only search imposes no constraint —
the row is returned although the claimed match condition (name or phone
equal to the trimmed, empty, string) is false for it. -/
theorem search_whitespace_counterexample :
    applyFiltersList (searchOnlyFS " ") [rowJohn] = Except.ok [rowJohn] ∧
    searchMatch (pyTrim " ") rowJohn = false := by decide

/-- C7 (amended): for a search whose trimmed form is nonempty, a row
matches iff its name equals the trimmed string case-insensitively or its
phone number equals it exactly; an empty or whitespace-only search
imposes no constraint. -/
theorem search_exact_match (s : String) (rows : List SalesTransaction)
    (h : pyTrim s ≠ "") :
    applyFiltersList (searchOnlyFS s) rows =
      Except.ok (rows.filter (fun r => searchMatch (pyTrim s) r)) ∧
    (∀ r : SalesTransaction, ∀ n : String, r.customer_name = some n →
        searchMatch (pyTrim s) r =
          (pyLower n == pyLower (pyTrim s) || r.phone_number == some (pyTrim s))) ∧
    (∀ s2 : String, pyTrim s2 = "" →
        applyFiltersList (searchOnlyFS s2) rows = Except.ok rows) := by
  have hs : s ≠ "" := by
    intro he
    rw [he] at h
    exact h rfl
  refine ⟨?_, ?_, ?_⟩
  · rw [applyFiltersList_eq_filter (searchOnlyFS s) rows [] rfl]
    congr 1
    apply List.filter_congr
    intro r hr
    simp [matchesSelection, searchOnlyFS, emptyFS, dimAny, startDatePred, endDatePred,
          searchPred, hs, h]
  · intro r n hn
    have hbeq : (r.phone_number == some (pyTrim s)) =
        (match r.phone_number with
         | some p => p == pyTrim s
         | none => false) := by
      cases r.phone_number <;> rfl
    rw [hbeq]
    simp [searchMatch, hn]
  · intro s2 h2
    rw [applyFiltersList_eq_filter (searchOnlyFS s2) rows [] rfl]
    refine congrArg Except.ok (List.filter_eq_self.mpr ?_)
    intro a ha
    by_cases hs2 : s2 = "" <;>
      simp [matchesSelection, searchOnlyFS, emptyFS, dimAny, startDatePred, endDatePred,
            searchPred, hs2, h2]

/-- Witness for C7: searching "john smith" matches the stored
"John Smith" but not "John Smithson". -/
theorem search_exact_match_witness :
    applyFiltersList (searchOnlyFS "john smith") [rowJS, rowJSon] =
      Except.ok [rowJS] := by
  obtain ⟨h1, h2, h3⟩ := search_exact_match "john smith" [rowJS, rowJSon] (by decide)
  rw [h1]
  decide

theorem rangeBy10Aux_mem (s hi : Int) :
    ∀ (n : Nat) (lo : Int), hi - lo ≤ 10 * n →
      (s ∈ rangeBy10Aux lo hi n ↔ ∃ k : Nat, s = lo + 10 * k ∧ s < hi) := by
  intro n
  induction n with
  | zero =>
      intro lo hb
      simp only [rangeBy10Aux, List.not_mem_nil, false_iff]
      rintro ⟨k, hk, hs⟩
      omega
  | succ n ih =>
      intro lo hb
      by_cases hlt : lo < hi
      · rw [show rangeBy10Aux lo hi (n + 1) = lo :: rangeBy10Aux (lo + 10) hi n from by
          simp [rangeBy10Aux, hlt]]
        rw [List.mem_cons, ih (lo + 10) (by omega)]
        constructor
        · rintro (h0 | ⟨k, hk, hs⟩)
          · exact ⟨0, by omega, by omega⟩
          · exact ⟨k + 1, by push_cast; omega, hs⟩
        · rintro ⟨k, hk, hs⟩
          cases k with
          | zero => left; omega
          | succ k => right; exact ⟨k, by push_cast at hk ⊢; omega, hs⟩
      · rw [show rangeBy10Aux lo hi (n + 1) = [] from by simp [rangeBy10Aux, hlt]]
        simp only [List.not_mem_nil, false_iff]
        rintro ⟨k, hk, hs⟩
        omega

/-- C8 counterexample: an empty store yields the ten default buckets
derived from the 0/100 defaults, not an empty list. -/
theorem age_options_empty_store_counterexample :
    get_filter_options_age_ranges [] =
      ["0-9", "10-19", "20-29", "30-39", "40-49", "50-59", "60-69", "70-79", "80-89",
       "90-99"] ∧
    get_filter_options_age_ranges [] ≠ [] := by decide

/-- C8 (amended): age_ranges are the tokens "start-(start+9)" for start
stepping by 10 from the effective minimum while strictly below the
effective maximum, where the minimum defaults to 0 and the maximum to
100 whenever the store is empty (or the respective aggregate is 0, by
Python `or` truthiness); in particular an empty store yields the ten
default buckets "0-9".."90-99". -/
theorem age_buckets (rows : List SalesTransaction) :
    get_filter_options_age_ranges rows =
      (rangeBy10 (effMinAge rows) (effMaxAge rows)).map ageToken ∧
    (∀ s : Int, s ∈ rangeBy10 (effMinAge rows) (effMaxAge rows) ↔
        ∃ k : Nat, s = effMinAge rows + 10 * k ∧ s < effMaxAge rows) ∧
    (rows = [] → effMinAge rows = 0 ∧ effMaxAge rows = 100) := by
  refine ⟨rfl, ?_, ?_⟩
  · intro s
    unfold rangeBy10
    exact rangeBy10Aux_mem s (effMaxAge rows)
      ((effMaxAge rows - effMinAge rows).toNat) (effMinAge rows) (by omega)
  · intro hrows
    subst hrows
    exact ⟨rfl, rfl⟩

/-- Witness for C8: a store with ages 23 and 47 yields buckets starting
at 23 stepping by 10 below 47, and 33 = 23 + 10·1 is one of the starts. -/
theorem age_buckets_witness :
    (33 : Int) ∈ rangeBy10 (effMinAge [rowAge 23, rowAge 47])
      (effMaxAge [rowAge 23, rowAge 47]) ∧
    get_filter_options_age_ranges [rowAge 23, rowAge 47] =
      ["23-32", "33-42", "43-52"] := by
  constructor
  · exact ((age_buckets [rowAge 23, rowAge 47]).2.1 33).mpr
      ⟨1, by decide, by decide⟩
  · decide

theorem dropWhile_cons_false (p : Char → Bool) (a : Char) (l : List Char)
    (h : p a = false) : (a :: l).dropWhile p = a :: l := by
  simp [List.dropWhile_cons, h]

theorem revDrop_all_false (p : Char → Bool) (x : List Char)
    (h : ∀ c ∈ x, p c = false) : ((x.reverse).dropWhile p).reverse = x := by
  cases hx : x.reverse with
  | nil =>
      have hxx : x = [] := List.reverse_eq_nil_iff.mp hx
      simp [hxx]
  | cons b r =>
      have hb : b ∈ x := List.mem_reverse.mp (hx ▸ List.mem_cons_self b r)
      rw [dropWhile_cons_false p b r (h b hb), ← hx, List.reverse_reverse]

theorem pyStrip_all_false (p : Char → Bool) (s : List Char)
    (h : ∀ c ∈ s, p c = false) : pyStrip p s = s := by
  unfold pyStrip dropEndWhile
  cases s with
  | nil => rfl
  | cons a t =>
      rw [dropWhile_cons_false p a t (h a (List.mem_cons_self a t))]
      exact revDrop_all_false p (a :: t) h

theorem pyStrip_wrap (p : Char → Bool) (w w2 : Char) (hw : p w = true)
    (hw2 : p w2 = true) (t : List Char) (ht : ∀ c ∈ t, p c = false) :
    pyStrip p (w :: (t ++ [w2])) = t := by
  unfold pyStrip dropEndWhile
  rw [List.dropWhile_cons]
  simp only [hw, if_true]
  cases t with
  | nil =>
      rw [show ([] ++ [w2] : List Char).dropWhile p = [] from by
        simp [List.dropWhile_cons, hw2]]
      rfl
  | cons a t2 =>
      rw [show ((a :: t2) ++ [w2] : List Char).dropWhile p = (a :: t2) ++ [w2] from
        dropWhile_cons_false p a (t2 ++ [w2]) (ht a (List.mem_cons_self a t2))]
      rw [show ((a :: t2) ++ [w2] : List Char).reverse = w2 :: (a :: t2).reverse from by
        simp]
      rw [List.dropWhile_cons]
      simp only [hw2, if_true]
      exact revDrop_all_false p (a :: t2) ht

theorem pyStrip_ends_false (p : Char → Bool) (s : List Char)
    (hh : ∀ a, s.head? = some a → p a = false)
    (hl : ∀ b, s.getLast? = some b → p b = false) : pyStrip p s = s := by
  unfold pyStrip dropEndWhile
  cases s with
  | nil => rfl
  | cons a t =>
      rw [dropWhile_cons_false p a t (hh a rfl)]
      cases hx : (a :: t).reverse with
      | nil => simp at hx
      | cons b r =>
          have hb : (a :: t).getLast? = some b := by
            rw [← List.head?_reverse, hx]
            rfl
          rw [dropWhile_cons_false p b r (hl b hb), ← hx, List.reverse_reverse]

theorem pyStrip_wrap_ends (p : Char → Bool) (w w2 : Char) (hw : p w = true)
    (hw2 : p w2 = true) (s : List Char) (hne : s ≠ [])
    (hh : ∀ a, s.head? = some a → p a = false)
    (hl : ∀ b, s.getLast? = some b → p b = false) :
    pyStrip p (w :: (s ++ [w2])) = s := by
  unfold pyStrip dropEndWhile
  rw [List.dropWhile_cons]
  simp only [hw, if_true]
  cases s with
  | nil => exact absurd rfl hne
  | cons a t =>
      rw [show ((a :: t) ++ [w2] : List Char).dropWhile p = (a :: t) ++ [w2] from
        dropWhile_cons_false p a (t ++ [w2]) (hh a rfl)]
      rw [show ((a :: t) ++ [w2] : List Char).reverse = w2 :: (a :: t).reverse from by
        simp]
      rw [List.dropWhile_cons]
      simp only [hw2, if_true]
      cases hx : (a :: t).reverse with
      | nil => simp at hx
      | cons b r =>
          have hb : (a :: t).getLast? = some b := by
            rw [← List.head?_reverse, hx]
            rfl
          rw [dropWhile_cons_false p b r (hl b hb), ← hx, List.reverse_reverse]

theorem splitChar_ne_nil (c : Char) (s : List Char) : splitChar c s ≠ [] := by
  induction s with
  | nil => simp [splitChar]
  | cons a t ih =>
      simp only [splitChar]
      cases h : splitChar c t with
      | nil => simp
      | cons x xs =>
          by_cases hac : a = c <;> simp [hac]

theorem splitChar_no_sep (c : Char) (s : List Char) (h : ∀ a ∈ s, a ≠ c) :
    splitChar c s = [s] := by
  induction s with
  | nil => rfl
  | cons a t ih =>
      have ha : a ≠ c := h a (List.mem_cons_self a t)
      simp only [splitChar]
      rw [ih (fun x hx => h x (List.mem_cons_of_mem a hx))]
      simp [ha]

theorem splitChar_append (c : Char) (p s : List Char) (hp : ∀ a ∈ p, a ≠ c) :
    splitChar c (p ++ c :: s) = p :: splitChar c s := by
  induction p with
  | nil =>
      simp only [List.nil_append, splitChar]
      cases hsp : splitChar c s with
      | nil => exact absurd hsp (splitChar_ne_nil c s)
      | cons x xs => simp
  | cons a p2 ih =>
      have ha : a ≠ c := hp a (List.mem_cons_self a p2)
      simp only [List.cons_append, splitChar, List.append_eq]
      rw [ih (fun x hx => hp x (List.mem_cons_of_mem a hx))]
      simp [ha]

theorem splitChar_joinWith (c : Char) (ts : List (List Char))
    (h : ∀ t ∈ ts, ∀ a ∈ t, a ≠ c) (hne : ts ≠ []) :
    splitChar c (joinWith c ts) = ts := by
  induction ts with
  | nil => exact absurd rfl hne
  | cons x ts2 ih =>
      cases ts2 with
      | nil => exact splitChar_no_sep c x (h x (List.mem_cons_self x []))
      | cons y ts3 =>
          show splitChar c (x ++ c :: joinWith c (y :: ts3)) = x :: y :: ts3
          rw [splitChar_append c x (joinWith c (y :: ts3))
            (h x (List.mem_cons_self x (y :: ts3)))]
          rw [ih (fun t ht a ha => h t (List.mem_cons_of_mem x ht) a ha) (by simp)]

theorem joinWith_ne_nil (c : Char) (x : List Char) (ts : List (List Char))
    (hx : x ≠ []) : joinWith c (x :: ts) ≠ [] := by
  cases ts with
  | nil => exact hx
  | cons y ts2 =>
      show x ++ c :: joinWith c (y :: ts2) ≠ []
      simp

theorem joinWith_head? (c : Char) (x : List Char) (ts : List (List Char))
    (hx : x ≠ []) : (joinWith c (x :: ts)).head? = x.head? := by
  cases ts with
  | nil => rfl
  | cons y ts2 =>
      cases x with
      | nil => exact absurd rfl hx
      | cons a t => rfl

theorem joinWith_getLast? (c : Char) (ts : List (List Char)) (hne : ts ≠ [])
    (hall : ∀ t ∈ ts, t ≠ []) :
    ∃ t ∈ ts, (joinWith c ts).getLast? = t.getLast? := by
  induction ts with
  | nil => exact absurd rfl hne
  | cons x ts2 ih =>
      cases ts2 with
      | nil => exact ⟨x, List.mem_cons_self x [], rfl⟩
      | cons y ts3 =>
          obtain ⟨t, ht, heq⟩ := ih (by simp)
            (fun t ht => hall t (List.mem_cons_of_mem x ht))
          refine ⟨t, List.mem_cons_of_mem x ht, ?_⟩
          show (x ++ c :: joinWith c (y :: ts3)).getLast? = t.getLast?
          rw [List.getLast?_append_of_ne_nil x (by simp)]
          rw [show (c :: joinWith c (y :: ts3)) = [c] ++ joinWith c (y :: ts3) from rfl]
          rw [List.getLast?_append_of_ne_nil [c]
            (joinWith_ne_nil c y ts3 (hall y (List.mem_cons_of_mem x
              (List.mem_cons_self y ts3))))]
          exact heq

theorem needsQuote_false_mem (t : List Char) (h : needsQuote t = false) (a : Char)
    (ha : a ∈ t) :
    a ≠ ',' ∧ isBraceChar a = false ∧ isQuoteChar a = false ∧
      a.isWhitespace = false := by
  unfold needsQuote at h
  simp only [Bool.or_eq_false_iff, List.any_eq_false] at h
  have hcomp := h.2 a ha
  have hfalse : (decide (a = ',') || decide (a = '{') || decide (a = '}') ||
      decide (a = '"') || a.isWhitespace) = false := by
    cases hb : (decide (a = ',') || decide (a = '{') || decide (a = '}') ||
        decide (a = '"') || a.isWhitespace)
    · rfl
    · exact absurd hb hcomp
  simp only [Bool.or_eq_false_iff] at hfalse
  obtain ⟨⟨⟨⟨h1, h2⟩, h3⟩, h4⟩, h5⟩ := hfalse
  refine ⟨by simpa using h1, ?_, by simpa [isQuoteChar] using h4, h5⟩
  simp only [isBraceChar, Bool.or_eq_false_iff]
  exact ⟨h2, h3⟩

theorem needsQuote_false_ne_nil (t : List Char) (h : needsQuote t = false) :
    t ≠ [] := by
  unfold needsQuote at h
  simp only [Bool.or_eq_false_iff] at h
  intro he
  rw [he] at h
  simp at h

theorem encTok_ne_nil (t : List Char) : encTok t ≠ [] := by
  unfold encTok
  by_cases hq : needsQuote t
  · simp [hq]
  · simp only [hq, Bool.false_eq_true, if_false]
    exact needsQuote_false_ne_nil t (by simpa using hq)

theorem encTok_head (t : List Char) (a : Char) (ha : (encTok t).head? = some a) :
    isBraceChar a = false ∧ a.isWhitespace = false := by
  unfold encTok at ha
  by_cases hq : needsQuote t
  · simp only [hq, if_true] at ha
    have : a = '"' := by
      simpa using ha.symm
    subst this
    exact ⟨by decide, by decide⟩
  · simp only [hq, Bool.false_eq_true, if_false] at ha
    have ham : a ∈ t := by
      cases t with
      | nil => simp at ha
      | cons b t2 =>
          have : a = b := by simpa using ha.symm
          subst this
          exact List.mem_cons_self a t2
    have := needsQuote_false_mem t (by simpa using hq) a ham
    exact ⟨this.2.1, this.2.2.2⟩

theorem encTok_last (t : List Char) (b : Char) (hb : (encTok t).getLast? = some b) :
    isBraceChar b = false ∧ b.isWhitespace = false := by
  unfold encTok at hb
  by_cases hq : needsQuote t
  · simp only [hq, if_true] at hb
    rw [show ('"' :: (t ++ ['"']) : List Char) = ('"' :: t) ++ ['"'] from rfl,
        List.getLast?_concat] at hb
    have : b = '"' := by simpa using hb.symm
    subst this
    exact ⟨by decide, by decide⟩
  · simp only [hq, Bool.false_eq_true, if_false] at hb
    have hbm : b ∈ t := List.mem_of_mem_getLast? hb
    have := needsQuote_false_mem t (by simpa using hq) b hbm
    exact ⟨this.2.1, this.2.2.2⟩

theorem decTok_value (t : List Char) (hc : ',' ∉ t) (hq : '"' ∉ t)
    (hw : pyStrip Char.isWhitespace t = t) :
    pyStrip Char.isWhitespace (pyStrip isQuoteChar (encTok t)) = t := by
  unfold encTok
  by_cases hnq : needsQuote t
  · simp only [hnq, if_true]
    rw [pyStrip_wrap isQuoteChar '"' '"' (by decide) (by decide) t
      (fun c hcm => by
        simp only [isQuoteChar, decide_eq_false_iff_not]
        intro he
        exact hq (he ▸ hcm))]
    exact hw
  · simp only [hnq, Bool.false_eq_true, if_false]
    rw [pyStrip_all_false isQuoteChar t (fun c hcm => by
      simp only [isQuoteChar, decide_eq_false_iff_not]
      intro he
      exact hq (he ▸ hcm))]
    exact hw

theorem decTok_keep (t : List Char) (hw : pyStrip Char.isWhitespace t = t) :
    pyStrip Char.isWhitespace (encTok t) ≠ [] := by
  unfold encTok
  by_cases hnq : needsQuote t
  · simp only [hnq, if_true]
    rw [pyStrip_ends_false Char.isWhitespace ('"' :: (t ++ ['"']))
      (fun a ha => by
        have : a = '"' := by simpa using ha.symm
        subst this
        decide)
      (fun b hb => by
        rw [show ('"' :: (t ++ ['"']) : List Char) = ('"' :: t) ++ ['"'] from rfl,
            List.getLast?_concat] at hb
        have : b = '"' := by simpa using hb.symm
        subst this
        decide)]
    simp
  · simp only [hnq, Bool.false_eq_true, if_false]
    have hnq2 : needsQuote t = false := by simpa using hnq
    rw [pyStrip_all_false Char.isWhitespace t
      (fun c hcm => (needsQuote_false_mem t hnq2 c hcm).2.2.2)]
    exact needsQuote_false_ne_nil t hnq2

/-- C3 (amended): decoding round-trips every encoder output whose tags
contain no comma and no quote character and carry no leading or trailing
whitespace; a tag containing a comma is re-split by the decoder (see the
counterexample). -/
theorem decode_encode_roundtrip (ts : List (List Char))
    (h : ∀ t ∈ ts, ',' ∉ t ∧ '"' ∉ t ∧ pyStrip Char.isWhitespace t = t) :
    decodeTagsL (encodeTags ts) = ts := by
  cases ts with
  | nil => rfl
  | cons t0 rest =>
      have hmap : (t0 :: rest).map encTok = encTok t0 :: rest.map encTok := rfl
      have hallne : ∀ u ∈ encTok t0 :: rest.map encTok, u ≠ [] := by
        intro u hu
        obtain ⟨t, ht, rfl⟩ := List.mem_map.mp (hmap ▸ hu)
        exact encTok_ne_nil t
      have hbody_ne : joinWith ',' (encTok t0 :: rest.map encTok) ≠ [] :=
        joinWith_ne_nil ',' (encTok t0) (rest.map encTok) (encTok_ne_nil t0)
      have hhead : ∀ a, (joinWith ',' (encTok t0 :: rest.map encTok)).head? = some a →
          isBraceChar a = false := by
        intro a ha
        rw [joinWith_head? ',' (encTok t0) (rest.map encTok) (encTok_ne_nil t0)] at ha
        exact (encTok_head t0 a ha).1
      have hlast : ∀ b, (joinWith ',' (encTok t0 :: rest.map encTok)).getLast? =
          some b → isBraceChar b = false := by
        intro b hb
        obtain ⟨u, hu, hequ⟩ := joinWith_getLast? ',' (encTok t0 :: rest.map encTok)
          (by simp) hallne
        rw [hequ] at hb
        obtain ⟨t, ht, rfl⟩ := List.mem_map.mp (hmap ▸ hu)
        exact (encTok_last t b hb).1
      have hcomma : ∀ u ∈ encTok t0 :: rest.map encTok, ∀ a ∈ u, a ≠ ',' := by
        intro u hu a hau
        obtain ⟨t, ht, rfl⟩ := List.mem_map.mp (hmap ▸ hu)
        have hts := h t ht
        revert hau
        unfold encTok
        by_cases hnq : needsQuote t
        · simp only [hnq, if_true]
          intro hau he
          subst he
          rcases List.mem_cons.mp hau with h1 | h1
          · exact absurd h1.symm (by decide)
          · rcases List.mem_append.mp h1 with h2 | h2
            · exact hts.1 h2
            · simp at h2
        · simp only [hnq, Bool.false_eq_true, if_false]
          intro hau
          exact (needsQuote_false_mem t (by simpa using hnq) a hau).1
      show decodeTagsL
          ('{' :: (joinWith ',' ((t0 :: rest).map encTok) ++ ['}'])) = t0 :: rest
      unfold decodeTagsL
      rw [hmap]
      rw [pyStrip_wrap_ends isBraceChar '{' '}' (by decide) (by decide)
        (joinWith ',' (encTok t0 :: rest.map encTok)) hbody_ne hhead hlast]
      rw [if_neg hbody_ne]
      rw [splitChar_joinWith ',' (encTok t0 :: rest.map encTok) hcomma (by simp)]
      rw [List.filter_eq_self.mpr (fun u hu => by
        obtain ⟨t, ht, rfl⟩ := List.mem_map.mp (hmap ▸ hu)
        exact decide_eq_true (decTok_keep t (h t ht).2.2))]
      rw [← hmap, List.map_map]
      rw [List.map_congr_left (fun t ht => ?_), List.map_id]
      show pyStrip Char.isWhitespace (pyStrip isQuoteChar (encTok t)) = t
      exact decTok_value t (h t ht).1 (h t ht).2.1 (h t ht).2.2

/-- C3 counterexample: a tag containing a comma does not round-trip —
the decoder splits inside the quoted token. -/
theorem decode_encode_comma_counterexample :
    decodeTagsL (encodeTags [("a,b").data]) = [("a").data, ("b").data] ∧
    [("a").data, ("b").data] ≠ [("a,b").data] := by decide

/-- Witness for C3: the spec example round-trips, and its encoding is
exactly the brace-delimited, comma-separated, quoted text of spec §8. -/
theorem decode_encode_roundtrip_witness :
    decodeTagsL (encodeTags [("electronics").data, ("home goods").data]) =
      [("electronics").data, ("home goods").data] ∧
    encodeTags [("electronics").data, ("home goods").data] =
      ("\x7belectronics,\"home goods\"\x7d").data ∧
    decodeTagsL (("\x7belectronics,\"home goods\"\x7d").data) =
      [("electronics").data, ("home goods").data] := by
  refine ⟨decode_encode_roundtrip [("electronics").data, ("home goods").data]
    (by decide), by decide, by decide⟩
